import Mathlib

/-!
Verification of the OurPR backend training-plan and achievement code.

Shallow embedding conventions:
* Calendar dates are integers counting days; a date d is a Monday exactly
  when d % 7 = 0.  Python date.weekday() (Monday = 0 .. Sunday = 6) is
  thus d % 7, and timedelta arithmetic is integer addition.  Python
  floor division // and floor modulus % by the positive constant 7
  coincide with Lean Int.ediv and Int.emod, which are written / and %
  below.
* HTTP failures (fastapi HTTPException) are modelled by the ErrResp
  structure holding the status code and the detail string; fallible
  code returns Except ErrResp.
-/

/-- An HTTPException raised by the endpoint code: status code plus detail
string. -/
structure ErrResp where
  status_code : Nat
  detail : String
deriving DecidableEq, Repr

/-- From src/backend/app/api/training_plans.py, get_monday_of_week:
the Monday weeks_offset weeks before the week containing target_date
(monday_of_target_week = target_date - target_date.weekday(), then
minus 7 * weeks_offset days). -/
def get_monday_of_week (target_date : Int) (weeks_offset : Int) : Int :=
  (target_date - target_date % 7) - 7 * weeks_offset

/-- The MAX_PLAN_WEEKS constant of generate_training_plan. -/
def MAX_PLAN_WEEKS : Int := 20

/-- The weeks_until computation of generate_training_plan (step 3):
day_before_race = race - 1;
sunday_before_race = day_before_race - (day_before_race.weekday() + 1);
monday_this_week = today - today.weekday();
weeks_until = (sunday_before_race - monday_this_week).days // 7 + 1. -/
def computeWeeksUntil (today race_date_obj : Int) : Int :=
  (((race_date_obj - 1) - ((race_date_obj - 1) % 7 + 1))
    - (today - today % 7)) / 7 + 1

/-- The date-calculation part of generate_training_plan (step 3): rejects a
race date not strictly in the future, a weeks_until below 1, and a
weeks_until above MAX_PLAN_WEEKS; otherwise produces weeks_until together
with plan_start_date = get_monday_of_week(race_date, weeks_until). -/
def computePlanDates (today race_date_obj : Int) :
    Except ErrResp (Int × Int) :=
  if race_date_obj ≤ today then
    .error ⟨400, "Race date is in the past, cannot generate plan."⟩
  else
    let weeks_until := computeWeeksUntil today race_date_obj
    if weeks_until < 1 then
      .error ⟨400, "Not enough time before the race for a plan."⟩
    else if weeks_until > MAX_PLAN_WEEKS then
      .error ⟨400, "Training plans cannot be generated for more than 20 weeks. Please choose a race closer to the current date."⟩
    else
      .ok (weeks_until, get_monday_of_week race_date_obj weeks_until)

/-- Claim C1 (code_bug evidence): with today a Monday (day 0) and the race
exactly 70 days later (also a Monday), the code computes weeks_until = 9
and plan_start_date = today + 7, not the weeks_until = 10 and
plan_start_date = today that both the specification scenario and the
source comment (plan ends on the Sunday before race week) require: the
expression day_before_race - (weekday + 1) skips back a full week when the
day before the race is itself a Sunday. -/
theorem c1_monday_race_70_days_eval :
    computeWeeksUntil 0 70 = 9 ∧
    computePlanDates 0 70 = .ok (9, 7) ∧
    (9 : Int) ≠ 10 ∧ (7 : Int) ≠ 0 := by
  refine ⟨by decide, by rfl, by decide, by decide⟩

/-- Claim C5: whenever the date calculation succeeds, the computed
plan_start_date is a Monday and plan_start_date + 7 * weeks_until is
exactly the Monday of the week containing the race date. -/
theorem c5_plan_start_is_monday_of_race_week
    (today race_date_obj weeks_until plan_start : Int)
    (h : computePlanDates today race_date_obj = .ok (weeks_until, plan_start)) :
    plan_start % 7 = 0 ∧
    plan_start + 7 * weeks_until = get_monday_of_week race_date_obj 0 := by
  unfold computePlanDates at h
  split at h
  · exact absurd h (by simp)
  · simp only at h
    split at h
    · exact absurd h (by simp)
    · split at h
      · exact absurd h (by simp)
      · simp only [Except.ok.injEq, Prod.mk.injEq] at h
        obtain ⟨hw, hs⟩ := h
        subst hw hs
        unfold get_monday_of_week
        constructor
        · omega
        · ring

/-- Witness for C5 at today = 0, race = 70: the calculation succeeds with
weeks_until = 9 and plan_start = 7, which is a Monday, and 7 + 63 is the
Monday of race week. -/
theorem c5_plan_start_is_monday_of_race_week_witness :
    (7 : Int) % 7 = 0 ∧ (7 : Int) + 7 * 9 = get_monday_of_week 70 0 :=
  c5_plan_start_is_monday_of_race_week 0 70 9 7 (by rfl)

/-- Claim C6 (counterexample): the claim asserts the calculation fails for
every race date 2 days after today, but when today is a Sunday (day 6) and
the race is 2 days later (day 8) the code computes weeks_until = 1 and
succeeds; moreover the too-soon detail string of the code is not the
message the claim quotes. -/
theorem c6_race_in_two_days_counterexample :
    computePlanDates 6 8 = .ok (1, 0) ∧
    computePlanDates 0 2 =
      .error ⟨400, "Not enough time before the race for a plan."⟩ ∧
    "Not enough time before the race for a plan." ≠ "less than a week away" := by
  refine ⟨by rfl, by rfl, by decide⟩

/-- Claim C6 as amended: the date calculation fails with a 400 error
whenever weeks_until < 1; for a race 2 days after today this happens
exactly when today is not a Sunday, with detail
"Not enough time before the race for a plan."; whenever weeks_until
exceeds the cap of 20 it fails with a 400 error whose detail states the
cap; and whenever 1 <= weeks_until <= 20 it succeeds. -/
theorem c6_invalid_input_errors (today race_date_obj : Int) :
    (computeWeeksUntil today race_date_obj < 1 →
      ∃ msg, computePlanDates today race_date_obj = .error ⟨400, msg⟩) ∧
    (today % 7 ≠ 6 → race_date_obj = today + 2 →
      computePlanDates today race_date_obj =
        .error ⟨400, "Not enough time before the race for a plan."⟩) ∧
    (computeWeeksUntil today race_date_obj > 20 →
      computePlanDates today race_date_obj =
        .error ⟨400, "Training plans cannot be generated for more than 20 weeks. Please choose a race closer to the current date."⟩) ∧
    (1 ≤ computeWeeksUntil today race_date_obj →
      computeWeeksUntil today race_date_obj ≤ 20 →
      computePlanDates today race_date_obj =
        .ok (computeWeeksUntil today race_date_obj,
             get_monday_of_week race_date_obj
               (computeWeeksUntil today race_date_obj))) := by
  have hpast : race_date_obj ≤ today → computeWeeksUntil today race_date_obj < 1 := by
    intro hle
    unfold computeWeeksUntil
    omega
  refine ⟨?_, ?_, ?_, ?_⟩
  · intro hlt
    unfold computePlanDates
    split
    · exact ⟨"Race date is in the past, cannot generate plan.", rfl⟩
    · simp only
      rw [if_pos hlt]
      exact ⟨"Not enough time before the race for a plan.", rfl⟩
  · intro hsun hrace
    have hlt : computeWeeksUntil today race_date_obj < 1 := by
      subst hrace
      unfold computeWeeksUntil
      omega
    unfold computePlanDates
    split
    · omega
    · simp only
      rw [if_pos hlt]
  · intro hgt
    have hfut : ¬ race_date_obj ≤ today := fun hle => by
      have := hpast hle; omega
    unfold computePlanDates
    rw [if_neg hfut]
    simp only
    rw [if_neg (by omega), if_pos (by unfold MAX_PLAN_WEEKS; omega)]
  · intro h1 h20
    have hfut : ¬ race_date_obj ≤ today := fun hle => by
      have := hpast hle; omega
    unfold computePlanDates
    rw [if_neg hfut]
    simp only
    rw [if_neg (by omega), if_neg (by unfold MAX_PLAN_WEEKS; omega)]

/-- Witness for C6 at concrete inputs: today = 0, race = 2 triggers the
too-soon branch; today = 0, race = 700 triggers the cap branch with the
detail stating the 20-week cap; today = 0, race = 70 succeeds. -/
theorem c6_invalid_input_errors_witness :
    computePlanDates 0 2 =
      .error ⟨400, "Not enough time before the race for a plan."⟩ ∧
    computePlanDates 0 700 =
      .error ⟨400, "Training plans cannot be generated for more than 20 weeks. Please choose a race closer to the current date."⟩ ∧
    computePlanDates 0 70 = .ok (computeWeeksUntil 0 70, get_monday_of_week 70 (computeWeeksUntil 0 70)) :=
  ⟨(c6_invalid_input_errors 0 2).2.1 (by decide) (by decide),
   (c6_invalid_input_errors 0 700).2.2.1 (by decide),
   (c6_invalid_input_errors 0 70).2.2.2 (by decide) (by decide)⟩

/-! ## The per-day repair step of generate_training_plan (pre-processing)

The parsed model response is a JSON object; a day object is modelled by
the AiDay structure.  A JSON string field that is absent is modelled as
none (the code reads every such field with dict.get, which treats an
absent key and an explicit null identically; a null value for a required
key leads to a failure in either reading).  The optional "date" value a
model response may carry for a day is modelled as an integer date, and
the remaining passthrough fields are kept verbatim. -/

/-- A day object of the parsed model response. -/
@[ext]
structure AiDay where
  day_of_week : Option String := none
  workout_type : Option String := none
  description : Option String := none
  date : Option Int := none
  status : Option String := none
  distance : Option String := none
  duration : Option String := none
  intensity : Option String := none
  notes : Option (List String) := none
  google_event_id : Option String := none
deriving DecidableEq, Repr

/-- A week object of the parsed model response. -/
@[ext]
structure AiWeek where
  week_number : Option Int := none
  weekly_focus : Option String := none
  estimated_weekly_mileage : Option String := none
  days : List AiDay := []
deriving DecidableEq, Repr

/-- The parsed model response (ai_parsed_data). -/
@[ext]
structure AiPlan where
  race_name : Option String := none
  race_distance : Option String := none
  weeks : List AiWeek := []
  overall_notes : Option (List String) := none
deriving DecidableEq, Repr

/-- The day_order list of generate_training_plan. -/
def day_order : List String :=
  [("Monday"), ("Tuesday"), ("Wednesday"), ("Thursday"), ("Friday"),
   ("Saturday"), ("Sunday")]

/-- The allowed_workout_types set of generate_training_plan. -/
def allowed_workout_types : List String :=
  [("Easy Run"), ("Tempo Run"), ("Intervals"), ("Speed Work"), ("Long Run"),
   ("Rest"), ("Cross-Training"), ("Strength"), ("Race Pace"), ("Warm-up"),
   ("Cool-down"), ("Other")]

/-- Python truthiness test `not x` for an optional string: true when the
value is absent (or null) or the empty string. -/
def falsyOptStr : Option String → Bool
  | none => true
  | some s => s = ("")

/-- Python membership test `x not in xs` where x is an optional string:
an absent value is in no list. -/
def optNotMem (x : Option String) (xs : List String) : Bool :=
  match x with
  | none => true
  | some s => ! xs.contains s

/-- The repair of one day object (the body of the inner loop of the
pre-processing step, for the day at position index of a 7-day week):
1. overwrite an absent/invalid day_of_week with day_order[index];
2. overwrite an absent/invalid workout_type with "Other";
3. if description is absent/empty, default it from the (possibly
   corrected) workout type, with "Workout" standing in when that type is
   "Other". -/
def repairDay (index : Nat) (d : AiDay) : AiDay :=
  let d1 :=
    if falsyOptStr d.day_of_week || optNotMem d.day_of_week day_order then
      { d with day_of_week := some (day_order.getD index ("")) }
    else d
  let d2 :=
    if falsyOptStr d1.workout_type ||
        optNotMem d1.workout_type allowed_workout_types then
      { d1 with workout_type := some ("Other") }
    else d1
  if falsyOptStr d2.description then
    { d2 with description :=
        if d2.workout_type = some ("Other") then some ("Workout")
        else d2.workout_type }
  else d2

/-- The enumerate loop over the (exactly seven) days of a week: repair
each day with its position. -/
def repairDays : Nat → List AiDay → List AiDay
  | _, [] => []
  | i, d :: ds => repairDay i d :: repairDays (i + 1) ds

/-- The repair of one week object: a week whose day count is not 7 is
skipped (the loop continues without correcting it). -/
def repairWeek (w : AiWeek) : AiWeek :=
  if w.days.length ≠ 7 then w
  else { w with days := repairDays 0 w.days }

/-- The whole pre-processing step over the parsed model response. -/
def repairPlan (p : AiPlan) : AiPlan :=
  { p with weeks := p.weeks.map repairWeek }

/-- Claim C2 (counterexample): for a day whose workout_type is the
out-of-enum string "5 mile tempo" and whose description is missing, the
repair sets description to "Workout", not to "Other" as the claim
states. -/
theorem c2_invalid_type_empty_description_counterexample :
    (repairDay 0 { workout_type := some ("5 mile tempo") }).workout_type
        = some ("Other") ∧
    (repairDay 0 { workout_type := some ("5 mile tempo") }).description
        = some ("Workout") ∧
    (repairDay 0 { workout_type := some ("5 mile tempo") }).description
        ≠ some ("Other") := by
  refine ⟨by rfl, by rfl, by decide⟩


/-! Field characterizations of repairDay, used for claims C2, C8, C3 and C4. -/

theorem repairDay_day_of_week (i : Nat) (d : AiDay) :
    (repairDay i d).day_of_week =
      if (falsyOptStr d.day_of_week || optNotMem d.day_of_week day_order) = true
      then some (day_order.getD i ("")) else d.day_of_week := by
  unfold repairDay
  dsimp only
  split <;> (try dsimp only) <;> split <;> (try dsimp only) <;> split <;> simp_all

theorem repairDay_workout_type (i : Nat) (d : AiDay) :
    (repairDay i d).workout_type =
      if (falsyOptStr d.workout_type ||
          optNotMem d.workout_type allowed_workout_types) = true
      then some ("Other") else d.workout_type := by
  unfold repairDay
  dsimp only
  split <;> (try dsimp only) <;> split <;> (try dsimp only) <;> split <;> simp_all

theorem repairDay_description (i : Nat) (d : AiDay) :
    (repairDay i d).description =
      if falsyOptStr d.description = true then
        (if (repairDay i d).workout_type = some ("Other") then some ("Workout")
         else (repairDay i d).workout_type)
      else d.description := by
  conv_lhs => unfold repairDay
  rw [repairDay_workout_type]
  dsimp only
  split <;> (try dsimp only) <;> split <;> (try dsimp only) <;> split <;> simp_all

theorem repairDay_date (i : Nat) (d : AiDay) :
    (repairDay i d).date = d.date := by
  unfold repairDay
  dsimp only
  split <;> (try dsimp only) <;> split <;> (try dsimp only) <;> split <;> rfl

theorem repairDay_status (i : Nat) (d : AiDay) :
    (repairDay i d).status = d.status := by
  unfold repairDay
  dsimp only
  split <;> (try dsimp only) <;> split <;> (try dsimp only) <;> split <;> rfl

theorem repairDay_distance (i : Nat) (d : AiDay) :
    (repairDay i d).distance = d.distance := by
  unfold repairDay
  dsimp only
  split <;> (try dsimp only) <;> split <;> (try dsimp only) <;> split <;> rfl

theorem repairDay_duration (i : Nat) (d : AiDay) :
    (repairDay i d).duration = d.duration := by
  unfold repairDay
  dsimp only
  split <;> (try dsimp only) <;> split <;> (try dsimp only) <;> split <;> rfl

theorem repairDay_intensity (i : Nat) (d : AiDay) :
    (repairDay i d).intensity = d.intensity := by
  unfold repairDay
  dsimp only
  split <;> (try dsimp only) <;> split <;> (try dsimp only) <;> split <;> rfl

theorem repairDay_notes (i : Nat) (d : AiDay) :
    (repairDay i d).notes = d.notes := by
  unfold repairDay
  dsimp only
  split <;> (try dsimp only) <;> split <;> (try dsimp only) <;> split <;> rfl

theorem repairDay_google_event_id (i : Nat) (d : AiDay) :
    (repairDay i d).google_event_id = d.google_event_id := by
  unfold repairDay
  dsimp only
  split <;> (try dsimp only) <;> split <;> (try dsimp only) <;> split <;> rfl

theorem contains_allowed_not_falsy (s : String)
    (h : allowed_workout_types.contains s = true) :
    falsyOptStr (some s) = false := by
  have hs : s ∈ allowed_workout_types := by
    simpa [List.contains] using h
  fin_cases hs <;> decide

theorem repairDay_workout_type_valid (i : Nat) (d : AiDay) :
    ∃ s, (repairDay i d).workout_type = some s ∧
      allowed_workout_types.contains s = true := by
  rw [repairDay_workout_type]
  split
  · exact ⟨("Other"), rfl, by decide⟩
  · next h =>
    match hwt : d.workout_type with
    | none => simp [falsyOptStr, hwt] at h
    | some s =>
      refine ⟨s, rfl, ?_⟩
      rw [hwt] at h
      simp only [falsyOptStr, optNotMem, Bool.or_eq_true, decide_eq_true_eq,
        Bool.not_eq_true', Bool.not_eq_false] at h
      push_neg at h
      exact eq_true_of_ne_false h.2

theorem repairDay_description_not_falsy (i : Nat) (d : AiDay) :
    falsyOptStr ((repairDay i d).description) = false := by
  obtain ⟨w, hw, hwmem⟩ := repairDay_workout_type_valid i d
  rw [repairDay_description]
  split
  · rw [hw]
    split
    · decide
    · exact contains_allowed_not_falsy w hwmem
  · next h => simpa using h

theorem repairDay_idem (i : Nat) (d : AiDay) :
    repairDay i (repairDay i d) = repairDay i d := by
  obtain ⟨w, hw, hwmem⟩ := repairDay_workout_type_valid i d
  apply AiDay.ext
  · -- day_of_week
    rw [repairDay_day_of_week i (repairDay i d)]
    by_cases h : (falsyOptStr d.day_of_week || optNotMem d.day_of_week day_order) = true
    · have hd : (repairDay i d).day_of_week = some (day_order.getD i ("")) := by
        rw [repairDay_day_of_week, if_pos h]
      rw [hd]
      split <;> rfl
    · have hd : (repairDay i d).day_of_week = d.day_of_week := by
        rw [repairDay_day_of_week, if_neg h]
      rw [hd, if_neg h]
  · -- workout_type
    rw [repairDay_workout_type i (repairDay i d), hw]
    have : (falsyOptStr (some w) ||
        optNotMem (some w) allowed_workout_types) = false := by
      have hmem : w ∈ allowed_workout_types := by
        simpa [List.contains] using hwmem
      rw [contains_allowed_not_falsy w hwmem]
      simp [optNotMem, hmem]
    simp [this]
  · -- description
    rw [repairDay_description i (repairDay i d),
      repairDay_description_not_falsy i d]
    simp
  · rw [repairDay_date, repairDay_date]
  · rw [repairDay_status, repairDay_status]
  · rw [repairDay_distance, repairDay_distance]
  · rw [repairDay_duration, repairDay_duration]
  · rw [repairDay_intensity, repairDay_intensity]
  · rw [repairDay_notes, repairDay_notes]
  · rw [repairDay_google_event_id, repairDay_google_event_id]

/-- Claim C2 as amended: for every repaired day whose workout_type is
absent or outside the closed enum, the repair overwrites workout_type
with "Other", and if the description was empty or missing it sets the
description to "Workout" (the default the code synthesizes when the
corrected type is "Other"). -/
theorem c2_workout_type_repair (index : Nat) (d : AiDay)
    (hbad : (falsyOptStr d.workout_type ||
      optNotMem d.workout_type allowed_workout_types) = true) :
    (repairDay index d).workout_type = some ("Other") ∧
    (falsyOptStr d.description = true →
      (repairDay index d).description = some ("Workout")) := by
  have htype : (repairDay index d).workout_type = some ("Other") := by
    rw [repairDay_workout_type, if_pos hbad]
  refine ⟨htype, fun hdesc => ?_⟩
  rw [repairDay_description, if_pos hdesc, if_pos htype]

/-- Witness for C2 at the counterexample day: the repair yields
workout_type "Other" and description "Workout". -/
theorem c2_workout_type_repair_witness :
    (repairDay 0 { workout_type := some ("5 mile tempo") : AiDay }).workout_type
        = some ("Other") ∧
    (falsyOptStr ({ workout_type := some ("5 mile tempo") : AiDay }).description = true →
      (repairDay 0 { workout_type := some ("5 mile tempo") : AiDay }).description
        = some ("Workout")) :=
  c2_workout_type_repair 0 { workout_type := some ("5 mile tempo") } (by decide)

/-- Repairing the days of a week keeps the day count. -/
theorem repairDays_length : ∀ (i : Nat) (l : List AiDay),
    (repairDays i l).length = l.length
  | _, [] => rfl
  | i, _ :: ds => by
    simp only [repairDays, List.length_cons, repairDays_length (i + 1) ds]

/-- The per-day repair loop is idempotent. -/
theorem repairDays_idem : ∀ (i : Nat) (l : List AiDay),
    repairDays i (repairDays i l) = repairDays i l
  | _, [] => rfl
  | i, d :: ds => by
    simp only [repairDays, repairDay_idem, repairDays_idem (i + 1) ds]

/-- The per-week repair is idempotent. -/
theorem repairWeek_idem (w : AiWeek) :
    repairWeek (repairWeek w) = repairWeek w := by
  conv_lhs => unfold repairWeek
  conv_rhs => unfold repairWeek
  split
  · rfl
  · next h =>
    have hlen : (repairDays 0 w.days).length = 7 := by
      rw [repairDays_length]
      omega
    rw [if_neg (by simpa using hlen)]
    simp [repairDays_idem]

/-- Claim C8: the repair step is idempotent: applying it twice to any
parsed model response yields exactly the structure obtained by applying
it once. -/
theorem c8_repair_idempotent (p : AiPlan) :
    repairPlan (repairPlan p) = repairPlan p := by
  unfold repairPlan
  apply AiPlan.ext <;> simp [List.map_map, Function.comp, repairWeek_idem]

/-! ## Construction of the full DetailedTrainingPlan (step 4 of
generate_training_plan)

After the repair step the code sorts the weeks by week_number, then for
week_index in range(weeks_until) builds a DetailedWeek whose start_date
advances by 7 days per week; each week must supply exactly 7 day objects,
which are sorted by day_order position; each day object must carry the
day_of_week, workout_type and description keys; the constructed day dict
is {"date": current_date, "status": "pending", **ai_day}, so a date or
status value carried by the model response overrides the computed one.
The final dict is validated against the DetailedTrainingPlan pydantic
model, whose Literal fields constrain day_of_week, workout_type and
status. -/

/-- A constructed daily workout (models the DailyWorkout pydantic model;
dates are integer days). -/
@[ext]
structure DailyWorkoutE where
  date : Int
  status : String
  day_of_week : String
  workout_type : String
  description : String
  distance : Option String := none
  duration : Option String := none
  intensity : Option String := none
  notes : Option (List String) := none
  google_event_id : Option String := none
deriving DecidableEq, Repr

/-- A constructed week (models the DetailedWeek pydantic model). -/
@[ext]
structure DetailedWeekE where
  week_number : Nat
  start_date : Int
  end_date : Int
  days : List DailyWorkoutE
  weekly_focus : Option String := none
  estimated_weekly_mileage : Option String := none
deriving DecidableEq, Repr

/-- A constructed plan (models the DetailedTrainingPlan pydantic model;
only the fields the construction fills are kept). -/
@[ext]
structure DetailedTrainingPlanE where
  user_id : String
  race_name : String
  race_distance : String
  race_date : String
  goal_time : String
  plan_start_date : Int
  total_weeks : Nat
  weeks : List DetailedWeekE
  overall_notes : Option (List String) := none
deriving DecidableEq, Repr

/-- Building one day dict: the day must carry the three required keys;
the resulting date and status are the computed ones unless the model
response day carries its own (dict unpacking **ai_day overrides them). -/
def constructDay (week_start_date : Int) (actual_week_number day_index : Nat)
    (d : AiDay) : Except ErrResp DailyWorkoutE :=
  if d.day_of_week.isSome && d.workout_type.isSome && d.description.isSome then
    .ok { date := d.date.getD (week_start_date + (day_index : Int))
        , status := d.status.getD ("pending")
        , day_of_week := d.day_of_week.getD ("")
        , workout_type := d.workout_type.getD ("")
        , description := d.description.getD ("")
        , distance := d.distance
        , duration := d.duration
        , intensity := d.intensity
        , notes := d.notes
        , google_event_id := d.google_event_id }
  else
    .error ⟨500, ("AI response missing required fields for day ")
      ++ toString (day_index + 1) ++ (" in week ")
      ++ toString actual_week_number ++ (".")⟩

/-- The enumerate loop over the sorted days of one week. -/
def constructDays (week_start_date : Int) (actual_week_number : Nat) :
    Nat → List AiDay → Except ErrResp (List DailyWorkoutE)
  | _, [] => .ok []
  | day_index, d :: ds =>
    match constructDay week_start_date actual_week_number day_index d with
    | .error e => .error e
    | .ok day =>
      match constructDays week_start_date actual_week_number (day_index + 1) ds with
      | .error e => .error e
      | .ok rest => .ok (day :: rest)

/-- Building one week: require exactly 7 day objects; sorting the days
calls day_order.index on every day name, which raises ValueError (caught
by the generic handler) when a name is outside day_order; the days are
then stably sorted by day_order position and constructed in order. -/
def constructWeek (actual_week_number : Nat) (week_start_date : Int)
    (ai_week : AiWeek) : Except ErrResp DetailedWeekE :=
  let ai_days := ai_week.days
  if ai_days.length ≠ 7 then
    .error ⟨500, ("AI returned ") ++ toString ai_days.length
      ++ (" days for week ") ++ toString actual_week_number
      ++ (", expected 7.")⟩
  else if ! ai_days.all (fun d => day_order.contains (d.day_of_week.getD (""))) then
    .error ⟨500, ("Error generating detailed plan: ValueError")⟩
  else
    let ai_days_sorted := List.insertionSort (fun a b =>
      day_order.indexOf (a.day_of_week.getD ("")) ≤
      day_order.indexOf (b.day_of_week.getD (""))) ai_days
    match constructDays week_start_date actual_week_number 0 ai_days_sorted with
    | .error e => .error e
    | .ok days =>
      .ok { week_number := actual_week_number
          , start_date := week_start_date
          , end_date := week_start_date + 6
          , days := days
          , weekly_focus := ai_week.weekly_focus
          , estimated_weekly_mileage := ai_week.estimated_weekly_mileage }

/-- The for week_index in range(weeks_until) loop: the first argument of
the recursion is the number of weeks still to build; a week_index beyond
the supplied weeks raises the missing-week error. -/
def constructWeeks (ai_weeks : List AiWeek) :
    Nat → Nat → Int → Except ErrResp (List DetailedWeekE)
  | 0, _, _ => .ok []
  | n + 1, week_index, current_monday =>
    match ai_weeks[week_index]? with
    | none => .error ⟨500, ("AI response missing data for week ")
        ++ toString (week_index + 1) ++ (".")⟩
    | some ai_week =>
      match constructWeek (week_index + 1) current_monday ai_week with
      | .error e => .error e
      | .ok w =>
        match constructWeeks ai_weeks n (week_index + 1) (current_monday + 7) with
        | .error e => .error e
        | .ok rest => .ok (w :: rest)

/-- The status Literal of the DailyWorkout pydantic model. -/
def workout_statuses : List String := [("pending"), ("completed"), ("skipped")]

/-- Pydantic validation of one constructed day: the Literal fields must
hold one of their allowed values. -/
def validDailyWorkoutE (d : DailyWorkoutE) : Bool :=
  day_order.contains d.day_of_week &&
  allowed_workout_types.contains d.workout_type &&
  workout_statuses.contains d.status

/-- Pydantic validation of the constructed plan (the parts not already
guaranteed by the typed construction). -/
def validPlanE (p : DetailedTrainingPlanE) : Bool :=
  p.weeks.all (fun w => w.days.all validDailyWorkoutE)

/-- The post-parsing body of generate_training_plan: repair the parsed
model response, sort its weeks by week_number, build the detailed weeks,
assemble the plan and validate it. -/
def generate_training_plan_core (weeks_until : Nat) (plan_start_date : Int)
    (user_id race_name race_distance race_date goal_time : String)
    (ai_parsed_data : AiPlan) : Except ErrResp DetailedTrainingPlanE :=
  let repaired := repairPlan ai_parsed_data
  let ai_weeks := List.insertionSort (fun a b =>
    a.week_number.getD 0 ≤ b.week_number.getD 0) repaired.weeks
  match constructWeeks ai_weeks weeks_until 0 plan_start_date with
  | .error e => .error e
  | .ok detailed_weeks =>
    let plan : DetailedTrainingPlanE :=
      { user_id := user_id
      , race_name := repaired.race_name.getD race_name
      , race_distance := repaired.race_distance.getD race_distance
      , race_date := race_date
      , goal_time := goal_time
      , plan_start_date := plan_start_date
      , total_weeks := weeks_until
      , weeks := detailed_weeks
      , overall_notes := repaired.overall_notes }
    if validPlanE plan then .ok plan
    else .error ⟨500, ("Generated plan structure is incompatible.")⟩

/-! Wellformedness facts about repaired weeks, and the behaviour of the
construction loops, used for claims C3 and C4. -/

/-- A day object carrying a valid day name and the required keys (what
the repair step guarantees for days of 7-day weeks). -/
def GoodDay (d : AiDay) : Prop :=
  (∃ s, d.day_of_week = some s ∧ day_order.contains s = true) ∧
  d.workout_type.isSome = true ∧ d.description.isSome = true

/-- A week object with exactly 7 wellformed day objects. -/
def GoodWeek (w : AiWeek) : Prop :=
  w.days.length = 7 ∧ ∀ d ∈ w.days, GoodDay d

theorem day_order_getD_contains (i : Nat) (h : i < 7) :
    day_order.contains (day_order.getD i ("")) = true := by
  interval_cases i <;> decide

theorem isSome_of_not_falsy {o : Option String}
    (h : falsyOptStr o = false) : o.isSome = true := by
  cases o with
  | none => simp [falsyOptStr] at h
  | some s => rfl

/-- Every day the repair loop produces at positions fitting in a 7-day
week is wellformed. -/
theorem repairDays_good : ∀ (i : Nat) (l : List AiDay),
    i + l.length ≤ 7 → ∀ d ∈ repairDays i l, GoodDay d := by
  intro i l
  induction l generalizing i with
  | nil => intro _ d hd; simp [repairDays] at hd
  | cons hd tl ih =>
    intro hlen d hmem
    simp only [repairDays, List.mem_cons] at hmem
    rcases hmem with rfl | hmem
    · refine ⟨?_, ?_, ?_⟩
      · rw [repairDay_day_of_week]
        split
        · exact ⟨day_order.getD i (""), rfl,
            day_order_getD_contains i (by simp at hlen; omega)⟩
        · next h =>
          simp only [Bool.or_eq_true, not_or, Bool.not_eq_true] at h
          obtain ⟨hf, hn⟩ := h
          cases hdw : hd.day_of_week with
          | none => rw [hdw] at hf; simp [falsyOptStr] at hf
          | some s =>
            refine ⟨s, rfl, ?_⟩
            rw [hdw] at hn
            simp only [optNotMem, Bool.not_eq_true'] at hn
            simpa using hn
      · obtain ⟨s, hs, _⟩ := repairDay_workout_type_valid i hd
        rw [hs]; rfl
      · exact isSome_of_not_falsy (repairDay_description_not_falsy i hd)
    · exact ih (i + 1) (by simp at hlen; omega) d hmem

/-- Repairing a 7-day week yields a wellformed week. -/
theorem repairWeek_good (w : AiWeek) (h7 : w.days.length = 7) :
    GoodWeek (repairWeek w) := by
  unfold repairWeek
  rw [if_neg (by omega)]
  exact ⟨by simpa using (repairDays_length 0 w.days).trans h7,
    repairDays_good 0 w.days (by omega)⟩

/-- The days of a repaired week all have the date value of some original
day (the repair never touches the date key). -/
theorem repairDays_date_mem : ∀ (i : Nat) (l : List AiDay),
    ∀ d ∈ repairDays i l, ∃ d0 ∈ l, d.date = d0.date := by
  intro i l
  induction l generalizing i with
  | nil => intro d hd; simp [repairDays] at hd
  | cons hd tl ih =>
    intro d hmem
    simp only [repairDays, List.mem_cons] at hmem
    rcases hmem with rfl | hmem
    · exact ⟨hd, List.mem_cons_self hd tl, repairDay_date i hd⟩
    · obtain ⟨d0, hd0, hdate⟩ := ih (i + 1) d hmem
      exact ⟨d0, List.mem_cons_of_mem hd hd0, hdate⟩

/-- Inversion for constructDays: the output has one constructed day per
input day, and each constructed date is the model-supplied one if
present, else week start plus offset. -/
theorem constructDays_spec (ws : Int) (wn : Nat) :
    ∀ (i : Nat) (l : List AiDay) (ds : List DailyWorkoutE),
    constructDays ws wn i l = .ok ds →
    ds.length = l.length ∧
    ∀ j (hj : j < l.length) (hd : j < ds.length),
      ds[j].date = (l[j].date).getD (ws + ((i + j : Nat) : Int)) := by
  intro i l
  induction l generalizing i with
  | nil =>
    intro ds h
    simp only [constructDays] at h
    cases h
    exact ⟨rfl, fun j hj => by simp at hj⟩
  | cons hd tl ih =>
    intro ds h
    simp only [constructDays] at h
    cases hcd : constructDay ws wn i hd with
    | error e => rw [hcd] at h; cases h
    | ok day =>
      rw [hcd] at h
      cases hrest : constructDays ws wn (i + 1) tl with
      | error e => rw [hrest] at h; cases h
      | ok rest =>
        rw [hrest] at h
        cases h
        obtain ⟨hlen, hdates⟩ := ih (i + 1) rest hrest
        refine ⟨by simp [hlen], ?_⟩
        intro j hj hdj
        cases j with
        | zero =>
          simp only [List.getElem_cons_zero]
          unfold constructDay at hcd
          split at hcd
          · cases hcd
            simp
          · cases hcd
        | succ j =>
          simp only [List.getElem_cons_succ]
          have hj2 : j < tl.length := by simpa using hj
          have hd2 : j < rest.length := by simpa using hdj
          have := hdates j hj2 hd2
          rw [this]
          congr 2
          omega

/-- constructDays succeeds on a list of days carrying the required
keys. -/
theorem constructDays_ok_of_good (ws : Int) (wn : Nat) :
    ∀ (i : Nat) (l : List AiDay),
    (∀ d ∈ l, d.day_of_week.isSome = true ∧ d.workout_type.isSome = true ∧
      d.description.isSome = true) →
    ∃ ds, constructDays ws wn i l = .ok ds := by
  intro i l
  induction l generalizing i with
  | nil => exact fun _ => ⟨[], rfl⟩
  | cons hd tl ih =>
    intro hgood
    obtain ⟨h1, h2, h3⟩ := hgood hd (List.mem_cons_self hd tl)
    obtain ⟨rest, hrest⟩ :=
      ih (i + 1) (fun d hd => hgood d (List.mem_cons_of_mem _ hd))
    have hday : ∃ day, constructDay ws wn i hd = .ok day := by
      unfold constructDay
      rw [if_pos (by rw [h1, h2, h3]; rfl)]
      exact ⟨_, rfl⟩
    obtain ⟨day, hday⟩ := hday
    exact ⟨day :: rest, by simp only [constructDays]; rw [hday, hrest]⟩

/-- Inversion for constructWeek: a successfully built week has the
computed number, start and end dates and exactly 7 days, and when no
model day supplied its own date value the day dates are start + offset. -/
theorem constructWeek_spec (wn : Nat) (cm : Int) (w : AiWeek)
    (r : DetailedWeekE) (h : constructWeek wn cm w = .ok r) :
    r.week_number = wn ∧ r.start_date = cm ∧ r.end_date = cm + 6 ∧
    r.days.length = 7 ∧
    ((∀ d ∈ w.days, d.date = none) →
      ∀ j (hj : j < r.days.length), r.days[j].date = cm + (j : Int)) := by
  unfold constructWeek at h
  dsimp only at h
  split at h
  · cases h
  · next h7 =>
    split at h
    · cases h
    · cases hcd : constructDays cm wn 0
        (List.insertionSort (fun a b =>
          day_order.indexOf (a.day_of_week.getD ("")) ≤
          day_order.indexOf (b.day_of_week.getD (""))) w.days) with
      | error e => rw [hcd] at h; cases h
      | ok ds =>
        rw [hcd] at h
        cases h
        obtain ⟨hlen, hdates⟩ := constructDays_spec cm wn 0 _ ds hcd
        have hlen7 : ds.length = 7 := by
          rw [hlen, List.length_insertionSort]
          omega
        refine ⟨rfl, rfl, rfl, hlen7, ?_⟩
        intro hnone j hj
        have hj2 : j < (List.insertionSort (fun a b =>
          day_order.indexOf (a.day_of_week.getD ("")) ≤
          day_order.indexOf (b.day_of_week.getD (""))) w.days).length := by
          rw [← hlen]; exact hj
        have hmem := List.getElem_mem hj2
        rw [List.mem_insertionSort] at hmem
        have := hdates j hj2 hj
        rw [this, hnone _ hmem]
        simp

/-- constructWeek succeeds on every wellformed week. -/
theorem constructWeek_ok_of_good (wn : Nat) (cm : Int) (w : AiWeek)
    (hg : GoodWeek w) : ∃ r, constructWeek wn cm w = .ok r := by
  obtain ⟨h7, hdays⟩ := hg
  have hsorted : ∀ d ∈ List.insertionSort (fun a b =>
      day_order.indexOf (a.day_of_week.getD ("")) ≤
      day_order.indexOf (b.day_of_week.getD (""))) w.days, GoodDay d := by
    intro d hd
    rw [List.mem_insertionSort] at hd
    exact hdays d hd
  obtain ⟨ds, hds⟩ := constructDays_ok_of_good cm wn 0 _
    (fun d hd => by
      obtain ⟨⟨s, hs, _⟩, h2, h3⟩ := hsorted d hd
      exact ⟨by rw [hs]; rfl, h2, h3⟩)
  have hvc : w.days.all
      (fun d => day_order.contains (d.day_of_week.getD (""))) = true := by
    rw [List.all_eq_true]
    intro d hd
    obtain ⟨⟨s, hs, hcont⟩, _, _⟩ := hdays d hd
    rw [hs]
    exact hcont
  refine ⟨{ week_number := wn
          , start_date := cm
          , end_date := cm + 6
          , days := ds
          , weekly_focus := w.weekly_focus
          , estimated_weekly_mileage := w.estimated_weekly_mileage }, ?_⟩
  unfold constructWeek
  dsimp only
  rw [if_neg (by omega), if_neg (by rw [hvc]; simp), hds]

/-- Inversion for the week loop: on success it yields one week per loop
iteration with numbers contiguous from week_index + 1 and start dates
advancing by 7 days, each with 7 days; when no model day supplied its own
date value the day dates are start + offset. -/
theorem constructWeeks_spec (aw : List AiWeek) :
    ∀ (n wi : Nat) (cm : Int) (ws : List DetailedWeekE),
    constructWeeks aw n wi cm = .ok ws →
    ws.length = n ∧
    ∀ k (hk : k < ws.length),
      ws[k].week_number = wi + k + 1 ∧
      ws[k].start_date = cm + 7 * (k : Int) ∧
      ws[k].end_date = ws[k].start_date + 6 ∧
      ws[k].days.length = 7 ∧
      ((∀ w ∈ aw, ∀ d ∈ w.days, d.date = none) →
        ∀ j (hj : j < ws[k].days.length),
          ws[k].days[j].date = ws[k].start_date + (j : Int)) := by
  intro n
  induction n with
  | zero =>
    intro wi cm ws h
    simp only [constructWeeks] at h
    cases h
    exact ⟨rfl, fun k hk => by simp at hk⟩
  | succ n ih =>
    intro wi cm ws h
    simp only [constructWeeks] at h
    cases haw : aw[wi]? with
    | none => rw [haw] at h; cases h
    | some ai_week =>
      rw [haw] at h
      dsimp only at h
      cases hcw : constructWeek (wi + 1) cm ai_week with
      | error e => rw [hcw] at h; cases h
      | ok r =>
        rw [hcw] at h
        cases hrest : constructWeeks aw n (wi + 1) (cm + 7) with
        | error e => rw [hrest] at h; cases h
        | ok rest =>
          rw [hrest] at h
          cases h
          obtain ⟨hlen, hweeks⟩ := ih (wi + 1) (cm + 7) rest hrest
          obtain ⟨hwn, hsd, hed, hdl, hdates⟩ :=
            constructWeek_spec (wi + 1) cm ai_week r hcw
          refine ⟨by simp [hlen], ?_⟩
          intro k hk
          cases k with
          | zero =>
            simp only [List.getElem_cons_zero]
            refine ⟨by omega, by rw [hsd]; simp, by rw [hed, hsd], hdl, ?_⟩
            intro hnone j hj
            have hmem : ai_week ∈ aw := by
              rw [List.mem_iff_getElem?]
              exact ⟨wi, haw⟩
            rw [hdates (hnone ai_week hmem) j hj, hsd]
          | succ k =>
            simp only [List.getElem_cons_succ]
            have hk2 : k < rest.length := by simpa using hk
            obtain ⟨h1, h2, h3, h4, h5⟩ := hweeks k hk2
            refine ⟨by omega, by rw [h2]; push_cast; ring, h3, h4, h5⟩

/-- The week loop never succeeds when the supplied weeks run out before
the loop does. -/
theorem constructWeeks_ne_ok (aw : List AiWeek) :
    ∀ (n wi : Nat) (cm : Int), wi ≤ aw.length → aw.length < wi + n →
    ∀ ws, constructWeeks aw n wi cm ≠ .ok ws := by
  intro n
  induction n with
  | zero => intro wi cm h1 h2 ws; omega
  | succ n ih =>
    intro wi cm h1 h2 ws h
    simp only [constructWeeks] at h
    rcases Nat.lt_or_ge wi aw.length with hlt | hge
    · rw [List.getElem?_eq_getElem hlt] at h
      dsimp only at h
      cases hcw : constructWeek (wi + 1) cm aw[wi] with
      | error e => rw [hcw] at h; cases h
      | ok r =>
        rw [hcw] at h
        cases hrest : constructWeeks aw n (wi + 1) (cm + 7) with
        | error e => rw [hrest] at h; cases h
        | ok rest => exact ih (wi + 1) (cm + 7) hlt (by omega) rest hrest
    · have : aw[wi]? = none := by
        rw [List.getElem?_eq_none]
        omega
      rw [this] at h
      cases h

/-- When every supplied week is wellformed but there are fewer weeks than
loop iterations, the loop fails precisely with the missing-data error
naming week (number of supplied weeks) + 1. -/
theorem constructWeeks_missing_error (aw : List AiWeek)
    (hgood : ∀ w ∈ aw, GoodWeek w) :
    ∀ (n wi : Nat) (cm : Int), wi ≤ aw.length → aw.length < wi + n →
    constructWeeks aw n wi cm =
      .error ⟨500, ("AI response missing data for week ")
        ++ toString (aw.length + 1) ++ (".")⟩ := by
  intro n
  induction n with
  | zero => intro wi cm h1 h2; omega
  | succ n ih =>
    intro wi cm h1 h2
    simp only [constructWeeks]
    rcases Nat.lt_or_ge wi aw.length with hlt | hge
    · rw [List.getElem?_eq_getElem hlt]
      dsimp only
      obtain ⟨r, hr⟩ := constructWeek_ok_of_good (wi + 1) cm aw[wi]
        (hgood aw[wi] (List.getElem_mem hlt))
      rw [hr]
      dsimp only
      rw [ih (wi + 1) (cm + 7) hlt (by omega)]
    · have hwi : wi = aw.length := by omega
      have : aw[wi]? = none := by
        rw [List.getElem?_eq_none]
        omega
      rw [this, hwi]
      

/-- A wellformed model-response day used in concrete scenarios. -/
def exampleRestDay : AiDay :=
  { day_of_week := some ("Monday")
  , workout_type := some ("Rest")
  , description := some ("Rest day") }

/-- A model response with one wellformed 7-day week (all days labelled
Monday, carrying no date of their own). -/
def oneGoodWeekInput : AiPlan :=
  { weeks := [ { days := List.replicate 7 exampleRestDay } ] }

/-- A model response with one 7-day week whose first day carries its own
date value 999 and whose seven days are all labelled Monday. -/
def c3CexInput : AiPlan :=
  { weeks := [ { days :=
      ({ exampleRestDay with date := some 999 }) ::
        List.replicate 6 exampleRestDay } ] }

/-- Probe of a generation result: the day_of_week of day index 1, the
date of day index 0, and the start date of the single week. -/
def c3Probe (r : Except ErrResp DetailedTrainingPlanE) :
    Option (String × Int × Int) :=
  match r with
  | .error _ => none
  | .ok p =>
    match p.weeks with
    | [w] =>
      match w.days with
      | d0 :: d1 :: _ => some (d1.day_of_week, d0.date, w.start_date)
      | _ => none
    | _ => none

/-- Claim C3 (counterexample): the generation pipeline happily returns a
plan for a model response whose seven day objects are all labelled
Monday and whose first day carries its own date value: the returned
plan has day index 1 labelled "Monday" (its calendar position is
Tuesday, day_order[1]), and day index 0 dated 999 instead of
start_date + 0 = 0, so the claimed invariants do not hold of every
returned plan. -/
theorem c3_counterexample :
    c3Probe (generate_training_plan_core 1 0 ("u") ("Race") ("5K")
        ("2025-06-01") ("") c3CexInput) =
      some (("Monday"), 999, 0) ∧
    ("Monday") ≠ day_order.getD 1 ("") ∧
    (999 : Int) ≠ 0 + (0 : Int) := by
  refine ⟨by rfl, by decide, by decide⟩

/-- Claim C3 as amended: every plan the generation pipeline returns
satisfies: total_weeks equals the number of weeks; week k has
week_number k+1, start_date = plan_start_date + 7k and
end_date = start_date + 6; every week has exactly 7 days whose
workout_type is in the closed enum and whose day_of_week is one of the
seven day names (the label can disagree with the calendar position,
which the code only warns about); and, provided no day of the model
response carried a date value of its own (such a value overrides the
computed one), days[j].date = start_date + j. -/
theorem c3_plan_invariants (wu : Nat) (ps : Int)
    (uid rn rd rdate gt : String) (ai : AiPlan) (p : DetailedTrainingPlanE)
    (h : generate_training_plan_core wu ps uid rn rd rdate gt ai = .ok p) :
    p.total_weeks = wu ∧
    p.plan_start_date = ps ∧
    p.weeks.length = wu ∧
    (∀ k (hk : k < p.weeks.length),
      p.weeks[k].week_number = k + 1 ∧
      p.weeks[k].start_date = ps + 7 * (k : Int) ∧
      p.weeks[k].end_date = p.weeks[k].start_date + 6 ∧
      p.weeks[k].days.length = 7 ∧
      (∀ j (hj : j < p.weeks[k].days.length),
        allowed_workout_types.contains (p.weeks[k].days[j].workout_type) = true ∧
        day_order.contains (p.weeks[k].days[j].day_of_week) = true)) ∧
    ((∀ w ∈ ai.weeks, ∀ d ∈ w.days, d.date = none) →
      ∀ k (hk : k < p.weeks.length) (j : Nat)
        (hj : j < p.weeks[k].days.length),
        p.weeks[k].days[j].date = p.weeks[k].start_date + (j : Int)) := by
  unfold generate_training_plan_core at h
  dsimp only at h
  cases hcw : constructWeeks
      (List.insertionSort (fun a b =>
        a.week_number.getD 0 ≤ b.week_number.getD 0) (repairPlan ai).weeks)
      wu 0 ps with
  | error e => rw [hcw] at h; cases h
  | ok detailed_weeks =>
    rw [hcw] at h
    dsimp only at h
    split at h
    · next hv =>
      cases h
      dsimp only
      obtain ⟨hlen, hweeks⟩ := constructWeeks_spec _ wu 0 ps detailed_weeks hcw
      refine ⟨rfl, rfl, hlen, ?_, ?_⟩
      · intro k hk
        obtain ⟨h1, h2, h3, h4, _⟩ := hweeks k hk
        refine ⟨by omega, by simpa using h2, h3, h4, ?_⟩
        intro j hj
        have hwmem := List.getElem_mem hk
        have hdmem := List.getElem_mem hj
        unfold validPlanE at hv
        rw [List.all_eq_true] at hv
        have := hv _ hwmem
        simp only [List.all_eq_true] at this
        have := this _ hdmem
        unfold validDailyWorkoutE at this
        simp only [Bool.and_eq_true] at this
        exact ⟨this.1.2, this.1.1⟩
      · intro hnone k hk j hj
        have hnone2 : ∀ w ∈ List.insertionSort (fun a b =>
            a.week_number.getD 0 ≤ b.week_number.getD 0) (repairPlan ai).weeks,
            ∀ d ∈ w.days, d.date = none := by
          intro w hw d hd
          rw [List.mem_insertionSort] at hw
          unfold repairPlan at hw
          simp only [List.mem_map] at hw
          obtain ⟨w0, hw0, rfl⟩ := hw
          unfold repairWeek at hd
          split at hd
          · exact hnone w0 hw0 d hd
          · simp only at hd
            obtain ⟨d0, hd0, hdate⟩ := repairDays_date_mem 0 w0.days d hd
            rw [hdate]
            exact hnone w0 hw0 d0 hd0
        obtain ⟨_, _, _, _, h5⟩ := hweeks k hk
        exact h5 hnone2 j hj
    · cases h

/-- One constructed day of the witness plan (Monday rest day dated j). -/
def monRestDay (j : Int) : DailyWorkoutE :=
  { date := j
  , status := ("pending")
  , day_of_week := ("Monday")
  , workout_type := ("Rest")
  , description := ("Rest day") }

/-- The plan the pipeline returns on oneGoodWeekInput with weeks_until =
1 and plan_start_date = 0. -/
def oneGoodWeekOutput : DetailedTrainingPlanE :=
  { user_id := ("u")
  , race_name := ("Race")
  , race_distance := ("5K")
  , race_date := ("2025-06-01")
  , goal_time := ("")
  , plan_start_date := 0
  , total_weeks := 1
  , weeks := [ { week_number := 1
               , start_date := 0
               , end_date := 6
               , days := [monRestDay 0, monRestDay 1, monRestDay 2,
                          monRestDay 3, monRestDay 4, monRestDay 5,
                          monRestDay 6] } ]
  , overall_notes := none }

/-- Witness for C3: on a concrete wellformed one-week model response the
pipeline succeeds and the invariants specialize as proved. -/
theorem c3_plan_invariants_witness :
    oneGoodWeekOutput.total_weeks = 1 ∧
    oneGoodWeekOutput.plan_start_date = 0 ∧
    oneGoodWeekOutput.weeks.length = 1 :=
  let h := c3_plan_invariants 1 0 ("u") ("Race") ("5K") ("2025-06-01") ("")
    oneGoodWeekInput oneGoodWeekOutput (by rfl)
  ⟨h.1, h.2.1, h.2.2.1⟩

/-- Claim C4 (counterexample): a model response with fewer weeks than
weeks_until does always fail, but not always with the missing-week
error: when the single provided week is malformed (6 days), generation
fails with the day-count error for week 1 instead of the missing-data
error for week 2 that the claim requires. -/
theorem c4_counterexample :
    generate_training_plan_core 2 0 ("u") ("Race") ("5K") ("2025-06-01")
        ("") { weeks := [ { days := List.replicate 6 ({} : AiDay) } ] } =
      .error ⟨500, ("AI returned 6 days for week 1, expected 7.")⟩ ∧
    ({ weeks := [ { days := List.replicate 6 ({} : AiDay) } ] } :
        AiPlan).weeks.length < 2 ∧
    ("AI returned 6 days for week 1, expected 7.") ≠
      ("AI response missing data for week 2.") := by
  refine ⟨by rfl, by decide, by decide⟩

/-- Claim C4 as amended: whenever the model response supplies fewer
weeks than weeks_until, generation never returns a plan (in particular
no shorter partial plan; the generation endpoint performs no store
writes at all), and if each supplied week carries exactly 7 day objects
the failure is exactly the 500 error naming the first missing week
index, i.e. week (number of supplied weeks) + 1. -/
theorem c4_fewer_weeks_fails (wu : Nat) (ps : Int)
    (uid rn rd rdate gt : String) (ai : AiPlan)
    (hlt : ai.weeks.length < wu) :
    (∀ p, generate_training_plan_core wu ps uid rn rd rdate gt ai ≠ .ok p) ∧
    ((∀ w ∈ ai.weeks, w.days.length = 7) →
      generate_training_plan_core wu ps uid rn rd rdate gt ai =
        .error ⟨500, ("AI response missing data for week ")
          ++ toString (ai.weeks.length + 1) ++ (".")⟩) := by
  have hslen : (List.insertionSort (fun a b =>
      a.week_number.getD 0 ≤ b.week_number.getD 0)
      (repairPlan ai).weeks).length = ai.weeks.length := by
    rw [List.length_insertionSort]
    unfold repairPlan
    simp
  constructor
  · intro p h
    unfold generate_training_plan_core at h
    dsimp only at h
    cases hcw : constructWeeks
        (List.insertionSort (fun a b =>
          a.week_number.getD 0 ≤ b.week_number.getD 0) (repairPlan ai).weeks)
        wu 0 ps with
    | error e => rw [hcw] at h; cases h
    | ok detailed_weeks =>
      exact constructWeeks_ne_ok _ wu 0 ps (by omega) (by omega)
        detailed_weeks hcw
  · intro h7
    have hgood : ∀ w ∈ List.insertionSort (fun a b =>
        a.week_number.getD 0 ≤ b.week_number.getD 0) (repairPlan ai).weeks,
        GoodWeek w := by
      intro w hw
      rw [List.mem_insertionSort] at hw
      unfold repairPlan at hw
      simp only [List.mem_map] at hw
      obtain ⟨w0, hw0, rfl⟩ := hw
      exact repairWeek_good w0 (h7 w0 hw0)
    have hmiss := constructWeeks_missing_error _ hgood wu 0 ps
      (by omega) (by omega)
    rw [hslen] at hmiss
    unfold generate_training_plan_core
    dsimp only
    rw [hmiss]

/-- Witness for C4: a model response with one wellformed week against
weeks_until = 2 fails with the missing-data error naming week 2. -/
theorem c4_fewer_weeks_fails_witness :
    generate_training_plan_core 2 0 ("u") ("Race") ("5K") ("2025-06-01")
        ("") oneGoodWeekInput =
      .error ⟨500, ("AI response missing data for week ")
        ++ toString (oneGoodWeekInput.weeks.length + 1) ++ (".")⟩ :=
  (c4_fewer_weeks_fails 2 0 ("u") ("Race") ("5K") ("2025-06-01") ("")
    oneGoodWeekInput (by decide)).2 (by decide)

/-! ## Fetching a saved plan (get_saved_plan)

The stored generated_plan column holds a JSON document.  The endpoint
returns 404 when no row (or a falsy document) exists, parses the
document against the DetailedTrainingPlan pydantic model, and on
failure distinguishes documents matching the old TrainingPlanOutline
model (409) from corrupt ones (500).  The two pydantic models (from
src/backend/app/models/training_plan.py) are embedded as validators
over a JSON value type, following the declared field annotations. -/

/-- A JSON value. -/
inductive Json where
  | null
  | bool (b : Bool)
  | num (n : Int)
  | str (s : String)
  | arr (elems : List Json)
  | obj (fields : List (String × Json))
deriving Repr

/-- dict.get on a JSON object. -/
def Json.get : Json → String → Option Json
  | .obj fields, key => fields.lookup key
  | _, _ => none

/-- Python truthiness of a JSON value. -/
def jsonFalsy : Json → Bool
  | .null => true
  | .bool b => ! b
  | .num n => n = 0
  | .str s => s = ("")
  | .arr elems => elems.isEmpty
  | .obj fields => fields.isEmpty

/-- A required str field. -/
def isStrField (o : Option Json) : Bool :=
  match o with
  | some (.str _) => true
  | _ => false

/-- A required int field. -/
def isIntField (o : Option Json) : Bool :=
  match o with
  | some (.num _) => true
  | _ => false

/-- An Optional[str] field with default None. -/
def isOptStrField (o : Option Json) : Bool :=
  match o with
  | none => true
  | some .null => true
  | some (.str _) => true
  | _ => false

/-- A JSON string value. -/
def isStrJson : Json → Bool
  | .str _ => true
  | _ => false

/-- An Optional[List[str]] field with default None. -/
def isOptListStrField (o : Option Json) : Bool :=
  match o with
  | none => true
  | some .null => true
  | some (.arr elems) => elems.all isStrJson
  | _ => false

/-- A required Literal[...] field over string values. -/
def isLiteralField (allowed : List String) (o : Option Json) : Bool :=
  match o with
  | some (.str s) => allowed.contains s
  | _ => false

/-- A str field with a default value (absent is fine). -/
def isDefaultedStrField (o : Option Json) : Bool :=
  match o with
  | none => true
  | some (.str _) => true
  | _ => false

/-- A Literal[...] field with a default value (absent is fine). -/
def isDefaultedLiteralField (allowed : List String) (o : Option Json) : Bool :=
  match o with
  | none => true
  | some (.str s) => allowed.contains s
  | _ => false

/-- An Optional[dict] field with default None. -/
def isOptObjField (o : Option Json) : Bool :=
  match o with
  | none => true
  | some .null => true
  | some (.obj _) => true
  | _ => false

/-- Validation against the WeeklySummary model. -/
def validWeeklySummary (j : Json) : Bool :=
  match j with
  | .obj _ =>
    isIntField (j.get ("week_number")) &&
    isStrField (j.get ("summary")) &&
    isOptStrField (j.get ("estimated_weekly_mileage"))
  | _ => false

/-- Validation against the old TrainingPlanOutline model. -/
def validTrainingPlanOutline (j : Json) : Bool :=
  match j with
  | .obj _ =>
    isStrField (j.get ("race_name")) &&
    isStrField (j.get ("race_distance")) &&
    isIntField (j.get ("total_weeks")) &&
    (match j.get ("weeks") with
     | some (.arr ws) => ws.all validWeeklySummary
     | _ => false) &&
    isOptListStrField (j.get ("notes"))
  | _ => false

/-- Validation against the DailyWorkout model. -/
def validDailyWorkoutJson (j : Json) : Bool :=
  match j with
  | .obj _ =>
    isStrField (j.get ("date")) &&
    isLiteralField day_order (j.get ("day_of_week")) &&
    isLiteralField allowed_workout_types (j.get ("workout_type")) &&
    isStrField (j.get ("description")) &&
    isOptStrField (j.get ("distance")) &&
    isOptStrField (j.get ("duration")) &&
    isOptStrField (j.get ("intensity")) &&
    isOptListStrField (j.get ("notes")) &&
    isDefaultedLiteralField workout_statuses (j.get ("status")) &&
    isOptStrField (j.get ("google_event_id"))
  | _ => false

/-- Validation against the DetailedWeek model. -/
def validDetailedWeekJson (j : Json) : Bool :=
  match j with
  | .obj _ =>
    isIntField (j.get ("week_number")) &&
    isStrField (j.get ("start_date")) &&
    isStrField (j.get ("end_date")) &&
    (match j.get ("days") with
     | some (.arr ds) => ds.all validDailyWorkoutJson
     | _ => false) &&
    isOptStrField (j.get ("weekly_focus")) &&
    isOptStrField (j.get ("estimated_weekly_mileage"))
  | _ => false

/-- Validation against the current DetailedTrainingPlan model. -/
def validDetailedTrainingPlanJson (j : Json) : Bool :=
  match j with
  | .obj _ =>
    isDefaultedStrField (j.get ("plan_id")) &&
    isStrField (j.get ("user_id")) &&
    isStrField (j.get ("race_name")) &&
    isStrField (j.get ("race_distance")) &&
    isStrField (j.get ("race_date")) &&
    isOptStrField (j.get ("goal_time")) &&
    isStrField (j.get ("plan_start_date")) &&
    isIntField (j.get ("total_weeks")) &&
    (match j.get ("weeks") with
     | some (.arr ws) => ws.all validDetailedWeekJson
     | _ => false) &&
    isOptListStrField (j.get ("overall_notes")) &&
    isOptObjField (j.get ("personalization_details")) &&
    isDefaultedStrField (j.get ("generated_at")) &&
    isDefaultedStrField (j.get ("plan_version"))
  | _ => false

/-- The outcome of the fetch endpoint: a parsed plan (the validated
document) or an HTTP error. -/
inductive FetchResult where
  | plan (doc : Json)
  | httpError (status_code : Nat) (detail : String)
deriving Repr

/-- get_saved_plan over the stored generated_plan value (none models a
missing row or column). -/
def get_saved_plan (generated_plan : Option Json) : FetchResult :=
  match generated_plan with
  | none => .httpError 404 ("No saved plan found for this race.")
  | some doc =>
    if jsonFalsy doc then
      .httpError 404 ("No saved plan found for this race.")
    else if validDetailedTrainingPlanJson doc then
      .plan doc
    else if validTrainingPlanOutline doc then
      .httpError 409 ("Saved plan uses an outdated format. Please delete it and generate a new one.")
    else
      .httpError 500 ("Saved plan data is invalid or corrupted.")

theorem validDetailed_not_falsy (doc : Json)
    (h : validDetailedTrainingPlanJson doc = true) : jsonFalsy doc = false := by
  cases doc with
  | obj fields =>
    cases fields with
    | nil => simp [validDetailedTrainingPlanJson, Json.get, isStrField] at h
    | cons f fs => rfl
  | null => simp [validDetailedTrainingPlanJson] at h
  | bool b => simp [validDetailedTrainingPlanJson] at h
  | num n => simp [validDetailedTrainingPlanJson] at h
  | str s => simp [validDetailedTrainingPlanJson] at h
  | arr elems => simp [validDetailedTrainingPlanJson] at h

theorem validOutline_not_falsy (doc : Json)
    (h : validTrainingPlanOutline doc = true) : jsonFalsy doc = false := by
  cases doc with
  | obj fields =>
    cases fields with
    | nil => simp [validTrainingPlanOutline, Json.get, isStrField] at h
    | cons f fs => rfl
  | null => simp [validTrainingPlanOutline] at h
  | bool b => simp [validTrainingPlanOutline] at h
  | num n => simp [validTrainingPlanOutline] at h
  | str s => simp [validTrainingPlanOutline] at h
  | arr elems => simp [validTrainingPlanOutline] at h

/-- Claim C7: the fetch endpoint returns 404 when no document is stored;
returns the parsed document when it validates against the current
DetailedTrainingPlan schema; and when it fails the current schema but
validates against the old outline schema it returns the distinct 409
OutdatedFormat error, never the old document itself. -/
theorem c7_fetch_dispatch (row : Option Json) :
    (row = none →
      get_saved_plan row = .httpError 404 ("No saved plan found for this race.")) ∧
    (∀ doc, row = some doc → validDetailedTrainingPlanJson doc = true →
      get_saved_plan row = .plan doc) ∧
    (∀ doc, row = some doc → validDetailedTrainingPlanJson doc = false →
      validTrainingPlanOutline doc = true →
      get_saved_plan row =
        .httpError 409 ("Saved plan uses an outdated format. Please delete it and generate a new one.")) := by
  refine ⟨?_, ?_, ?_⟩
  · rintro rfl
    rfl
  · rintro doc rfl hvalid
    unfold get_saved_plan
    dsimp only
    rw [if_neg (by rw [validDetailed_not_falsy doc hvalid]; simp),
      if_pos hvalid]
  · rintro doc rfl hnew hold
    unfold get_saved_plan
    dsimp only
    rw [if_neg (by rw [validOutline_not_falsy doc hold]; simp),
      if_neg (by rw [hnew]; simp), if_pos hold]

/-- A document in the old outline format. -/
def outlineDoc : Json :=
  .obj [ (("race_name"), .str ("Old Race"))
       , (("race_distance"), .str ("10K"))
       , (("total_weeks"), .num 8)
       , (("weeks"), .arr []) ]

/-- A document in the current detailed format. -/
def detailedDoc : Json :=
  .obj [ (("user_id"), .str ("u"))
       , (("race_name"), .str ("Race"))
       , (("race_distance"), .str ("5K"))
       , (("race_date"), .str ("2025-06-01"))
       , (("plan_start_date"), .str ("2025-04-07"))
       , (("total_weeks"), .num 8)
       , (("weeks"), .arr []) ]

/-- Witness for C7 at concrete stored documents: a missing row gives
404, a current-format document is returned, an old-format document
gives the 409 OutdatedFormat error. -/
theorem c7_fetch_dispatch_witness :
    get_saved_plan none = .httpError 404 ("No saved plan found for this race.") ∧
    get_saved_plan (some detailedDoc) = .plan detailedDoc ∧
    get_saved_plan (some outlineDoc) =
      .httpError 409 ("Saved plan uses an outdated format. Please delete it and generate a new one.") :=
  ⟨(c7_fetch_dispatch none).1 rfl,
   (c7_fetch_dispatch (some detailedDoc)).2.1 detailedDoc rfl (by rfl),
   (c7_fetch_dispatch (some outlineDoc)).2.2 outlineDoc rfl (by rfl) (by rfl)⟩

/-! ## Saving a generated plan (save_generated_plan)

The save endpoint checks that the user_id carried by the submitted plan
matches the authenticated user before any database access, then upserts
the plan JSON into user_generated_plans on conflict (user_id, race_id).
The store is the list of rows of that table; new_row_id is the id the
database would assign to a freshly inserted row. -/

/-- A row of the user_generated_plans table. -/
structure PlanRow where
  id : String
  user_id : String
  race_id : String
  generated_plan : Json
deriving Repr

/-- The UserGeneratedPlanResponse model. -/
structure UserGeneratedPlanResponseE where
  id : String
  user_id : String
  race_id : String
deriving DecidableEq, Repr

/-- Upsert with on_conflict (user_id, race_id): an existing row keeps
its id and gets the new plan; otherwise the row is appended. -/
def upsertPlanRow (store : List PlanRow) (row : PlanRow) : List PlanRow :=
  if store.any (fun r => r.user_id == row.user_id && r.race_id == row.race_id) then
    store.map (fun r =>
      if r.user_id == row.user_id && r.race_id == row.race_id then
        { r with generated_plan := row.generated_plan }
      else r)
  else store ++ [row]

/-- save_generated_plan: reject a plan whose user_id is not the
authenticated user with 403 before touching the store, else upsert and
answer with the row identifiers. -/
def save_generated_plan (current_user_id race_id : String)
    (plan_user_id : String) (plan_json : Json) (new_row_id : String)
    (store : List PlanRow) :
    Except ErrResp UserGeneratedPlanResponseE × List PlanRow :=
  if plan_user_id ≠ current_user_id then
    (.error ⟨403, ("Plan user ID does not match authenticated user.")⟩, store)
  else
    let row_id :=
      match store.find? (fun r =>
          r.user_id == current_user_id && r.race_id == race_id) with
      | some r => r.id
      | none => new_row_id
    (.ok { id := row_id, user_id := current_user_id, race_id := race_id },
     upsertPlanRow store
       { id := row_id
       , user_id := current_user_id
       , race_id := race_id
       , generated_plan := plan_json })

/-- Claim C10: a save request whose plan body carries a user_id
different from the authenticated caller fails with 403 Forbidden and
leaves the store untouched. -/
theorem c10_save_ownership (current_user_id race_id plan_user_id : String)
    (plan_json : Json) (new_row_id : String) (store : List PlanRow)
    (hne : plan_user_id ≠ current_user_id) :
    save_generated_plan current_user_id race_id plan_user_id plan_json
        new_row_id store =
      (.error ⟨403, ("Plan user ID does not match authenticated user.")⟩,
       store) := by
  unfold save_generated_plan
  rw [if_pos hne]

/-- Witness for C10: saving a plan owned by bob as alice is rejected
with 403 and writes nothing. -/
theorem c10_save_ownership_witness :
    save_generated_plan ("alice") ("race-1") ("bob") Json.null ("row-1") [] =
      (.error ⟨403, ("Plan user ID does not match authenticated user.")⟩,
       []) :=
  c10_save_ownership ("alice") ("race-1") ("bob") Json.null ("row-1") []
    (by decide)

/-! ## The achievement scorer
(src/backend/app/services/achievement_service.py)

One run of check_and_award_achievements fetches the achievement
definitions, the set of achievement ids the user has already earned
(here: the ids of the user's rows in user_achievements), and the PR
history, then queues candidate achievements through check_and_add,
which skips any id already in the earned set and records newly queued
ids in that set at once; the queued rows are inserted at the end.
The embedding factors the run into the final scorer state and the
projection onto the queued rows. -/

/-- A row of the achievements table (id, code, name). -/
structure AchievementDef where
  id : String
  code : String
  name : String
deriving DecidableEq, Repr

/-- The full UserPr model of the freshly inserted/updated PR. -/
structure UserPrE where
  id : String
  distance : String
  time_in_seconds : Int
  is_official : Bool
deriving DecidableEq, Repr

/-- One entry of the PR history query (select id, distance,
time_in_seconds). -/
structure PrHistEntry where
  id : String
  distance : String
  time_in_seconds : Int
deriving DecidableEq, Repr

/-- The STANDARD_DISTANCES set for the WELL_ROUNDED check. -/
def STANDARD_DISTANCES : List String :=
  [("5K"), ("10K"), ("Half Marathon"), ("Marathon")]

/-- The distance_code_map of the distance-milestone check. -/
def distance_code_map : List (String × String) :=
  [ (("5K"), ("5K_FINISHER"))
  , (("10K"), ("10K_FINISHER"))
  , (("Half Marathon"), ("HALF_MARATHONER"))
  , (("Marathon"), ("MARATHONER")) ]

/-- The ultra_distances set. -/
def ultra_distances : List String :=
  [("50K"), ("50 Miles"), ("100K"), ("100 Miles")]

/-- achievements_map[code] -> achievement id: the dict comprehension
keeps the last row with a given code. -/
def achievementsMapLookup (defs : List AchievementDef) (code : String) :
    Option String :=
  (defs.reverse.find? (fun a => a.code == code)).map (fun a => a.id)

/-- The mutable state of one scorer run: the earned set (with queued ids
added at once) and the queued rows. -/
structure ScorerState where
  earned_achievement_ids : List String
  achievements_to_award : List String
deriving DecidableEq, Repr

/-- check_and_add: queue the achievement for the code unless it is
unknown or its id is already in the earned set. -/
def check_and_add (defs : List AchievementDef) (code : String)
    (st : ScorerState) : ScorerState :=
  match achievementsMapLookup defs code with
  | none => st
  | some achievement_id =>
    if achievement_id ∈ st.earned_achievement_ids then st
    else
      { earned_achievement_ids :=
          achievement_id :: st.earned_achievement_ids
      , achievements_to_award :=
          st.achievements_to_award ++ [achievement_id] }

/-- The scorer state after all candidate checks of one run of
check_and_award_achievements. -/
def scorerFinalState (defs : List AchievementDef)
    (earned0 : List String) (pr_data : UserPrE)
    (user_prs : List PrHistEntry) : ScorerState :=
  let st0 : ScorerState :=
    { earned_achievement_ids := earned0, achievements_to_award := [] }
  let pr_count := user_prs.length
  let st1 := if pr_count = 1 then
      check_and_add defs ("FIRST_PR_LOGGED") st0
    else st0
  let st2 := if pr_data.is_official then
      check_and_add defs ("OFFICIAL_RACER") st1
    else st1
  let first_for_distance := ! user_prs.any (fun pr =>
    pr.id != pr_data.id && pr.distance == pr_data.distance)
  let st3 := if first_for_distance then
      match distance_code_map.lookup pr_data.distance with
      | some code => check_and_add defs code st2
      | none =>
        if pr_data.distance ∈ ultra_distances then
          check_and_add defs ("ULTRA_RUNNER") st2
        else st2
    else st2
  let st4 := if pr_data.distance == ("5K") &&
      decide (pr_data.time_in_seconds < 25 * 60) then
      check_and_add defs ("SPEEDY_5K") st3
    else st3
  let st5 := if pr_data.distance == ("Half Marathon") &&
      decide (pr_data.time_in_seconds < 2 * 60 * 60) then
      check_and_add defs ("SUB_2_HALF") st4
    else st4
  let st6 := if pr_data.distance == ("Marathon") &&
      decide (pr_data.time_in_seconds < 3 * 60 * 60) then
      check_and_add defs ("BQ_CONTENDER") st5
    else st5
  let logged_standard_distances := (user_prs.filterMap (fun pr =>
    if pr.distance ∈ STANDARD_DISTANCES then some pr.distance
    else none)).dedup
  let st7 := if 3 ≤ logged_standard_distances.length then
      check_and_add defs ("WELL_ROUNDED") st6
    else st6
  let previous_best_time := user_prs.foldl (fun acc pr =>
    if pr.id ≠ pr_data.id ∧ pr.distance = pr_data.distance then
      match acc with
      | none => some pr.time_in_seconds
      | some t =>
        if pr.time_in_seconds < t then some pr.time_in_seconds else some t
    else acc) none
  match previous_best_time with
  | some t =>
    if pr_data.time_in_seconds < t then
      check_and_add defs ("PERSONAL_BEST") st7
    else st7
  | none => st7

/-- One run of check_and_award_achievements: the rows it inserts into
user_achievements (the achievement ids queued for the user). -/
def check_and_award_achievements (defs : List AchievementDef)
    (earned0 : List String) (pr_data : UserPrE)
    (user_prs : List PrHistEntry) : List String :=
  (scorerFinalState defs earned0 pr_data user_prs).achievements_to_award

/-- Invariant of the scorer state: the queued rows are pairwise
distinct, disjoint from the initially earned set, and all recorded in
the running earned set, which extends the initial one. -/
def ScorerInv (earned0 : List String) (st : ScorerState) : Prop :=
  st.achievements_to_award.Nodup ∧
  (∀ a ∈ st.achievements_to_award, a ∉ earned0) ∧
  (∀ a ∈ earned0, a ∈ st.earned_achievement_ids) ∧
  (∀ a ∈ st.achievements_to_award, a ∈ st.earned_achievement_ids)

theorem check_and_add_inv (defs : List AchievementDef) (code : String)
    (earned0 : List String) (st : ScorerState)
    (h : ScorerInv earned0 st) :
    ScorerInv earned0 (check_and_add defs code st) := by
  obtain ⟨h1, h2, h3, h4⟩ := h
  unfold check_and_add
  cases achievementsMapLookup defs code with
  | none => exact ⟨h1, h2, h3, h4⟩
  | some aid =>
    dsimp only
    split
    · exact ⟨h1, h2, h3, h4⟩
    · next hnot =>
      refine ⟨?_, ?_, ?_, ?_⟩
      · simp only [List.nodup_append, List.nodup_singleton]
        exact ⟨h1, trivial, by
          intro a ha
          simp only [List.mem_singleton]
          intro heq
          exact hnot (heq ▸ h4 a ha)⟩
      · intro a ha
        simp only [List.mem_append, List.mem_singleton] at ha
        rcases ha with ha | rfl
        · exact h2 a ha
        · exact fun hmem => hnot (h3 a hmem)
      · intro a ha
        exact List.mem_cons_of_mem _ (h3 a ha)
      · intro a ha
        simp only [List.mem_append, List.mem_singleton] at ha
        rcases ha with ha | rfl
        · exact List.mem_cons_of_mem _ (h4 a ha)
        · exact List.mem_cons_self _ _

theorem ite_check_inv (defs : List AchievementDef) (code : String)
    (earned0 : List String) (c : Prop) [Decidable c] (st : ScorerState)
    (h : ScorerInv earned0 st) :
    ScorerInv earned0 (if c then check_and_add defs code st else st) := by
  split
  · exact check_and_add_inv defs code earned0 st h
  · exact h

theorem scorerFinalState_inv (defs : List AchievementDef)
    (earned0 : List String) (pr_data : UserPrE)
    (user_prs : List PrHistEntry) :
    ScorerInv earned0 (scorerFinalState defs earned0 pr_data user_prs) := by
  have h0 : ScorerInv earned0
      { earned_achievement_ids := earned0, achievements_to_award := [] } :=
    ⟨List.nodup_nil, by simp, fun a ha => ha, by simp⟩
  unfold scorerFinalState
  dsimp only
  repeat'
    first
    | exact h0
    | apply ite_check_inv
    | apply check_and_add_inv
    | split

/-- The rows one run inserts are pairwise distinct and disjoint from the
already-earned set. -/
theorem check_and_award_spec (defs : List AchievementDef)
    (earned0 : List String) (pr_data : UserPrE)
    (user_prs : List PrHistEntry) :
    (check_and_award_achievements defs earned0 pr_data user_prs).Nodup ∧
    ∀ a ∈ check_and_award_achievements defs earned0 pr_data user_prs,
      a ∉ earned0 := by
  obtain ⟨h1, h2, _, _⟩ := scorerFinalState_inv defs earned0 pr_data user_prs
  exact ⟨h1, h2⟩

/-- One triggering request: the achievement definitions visible to the
run together with the PR that triggered it and the PR history. -/
def achievementStep (rows : List String)
    (inp : List AchievementDef × UserPrE × List PrHistEntry) :
    List String :=
  rows ++ check_and_award_achievements inp.1 rows inp.2.1 inp.2.2

theorem achievementStep_nodup (rows : List String)
    (inp : List AchievementDef × UserPrE × List PrHistEntry)
    (h : rows.Nodup) : (achievementStep rows inp).Nodup := by
  obtain ⟨hn, hd⟩ := check_and_award_spec inp.1 rows inp.2.1 inp.2.2
  exact h.append hn (fun a ha hb => hd a hb ha)

/-- Claim C9: running the scorer any number of times from an empty
earned-achievements table leaves at most one row per achievement (so
per (user, achievement) pair: the table is the fixed user's rows), and
a candidate already present in the earned set is never inserted
again. -/
theorem c9_scorer_idempotent :
    (∀ (runs : List (List AchievementDef × UserPrE × List PrHistEntry))
       (a : String), (runs.foldl achievementStep []).count a ≤ 1) ∧
    (∀ (defs : List AchievementDef) (earned0 : List String)
       (pr_data : UserPrE) (user_prs : List PrHistEntry) (a : String),
       a ∈ earned0 →
       a ∉ check_and_award_achievements defs earned0 pr_data user_prs) := by
  constructor
  · intro runs a
    have hgen : ∀ (rows : List String), rows.Nodup →
        (runs.foldl achievementStep rows).Nodup := by
      induction runs with
      | nil => exact fun rows h => h
      | cons inp rest ih =>
        intro rows h
        exact ih _ (achievementStep_nodup rows inp h)
    exact List.nodup_iff_count_le_one.mp (hgen [] List.nodup_nil) a
  · intro defs earned0 pr_data user_prs a ha hmem
    exact (check_and_award_spec defs earned0 pr_data user_prs).2 a hmem ha

/-- Witness for C9: an achievement id already earned (from a previous
FIRST_PR_LOGGED award) is not inserted again by a run that triggers the
same candidate. -/
theorem c9_scorer_idempotent_witness :
    ("ach-1") ∈ [("ach-1")] ∧
    ("ach-1") ∉ check_and_award_achievements
      [ { id := ("ach-1"), code := ("FIRST_PR_LOGGED"), name := ("First PR") } ]
      [("ach-1")]
      { id := ("pr-1"), distance := ("5K"), time_in_seconds := 1500
      , is_official := false }
      [ { id := ("pr-1"), distance := ("5K"), time_in_seconds := 1500 } ] :=
  ⟨List.mem_singleton_self _,
   c9_scorer_idempotent.2
     [ { id := ("ach-1"), code := ("FIRST_PR_LOGGED"), name := ("First PR") } ]
     [("ach-1")]
     { id := ("pr-1"), distance := ("5K"), time_in_seconds := 1500
     , is_official := false }
     [ { id := ("pr-1"), distance := ("5K"), time_in_seconds := 1500 } ]
     ("ach-1") (List.mem_singleton_self _)⟩
